import Mathlib

/-!
Verification of the direct-message room selection logic (`src/RoomInvite.js`)
and the async action dispatch helper of a Matrix web chat client.

The JavaScript functions are embedded shallowly:

* a `Room` keeps the fields the selector reads: the membership map
  `currentState.members` (an association list from user id to membership
  string, mirroring a JS object's distinct keys in insertion order), the
  result of `room.getMyMembership()`, and the `origin_server_ts` values of
  the `m.room.create` state events returned by
  `currentState.getStateEvents("m.room.create")`;
* `_getDirectMessageRooms` and `_selectDirectChat` are direct translations
  of the functions of the same names, with the matrix client's room list and
  user id passed explicitly instead of read from the `MatrixClientPeg`
  singleton;
* `asyncAction` (from the dispatcher helper module) is modelled by the list
  of action records it hands to `dispatch`, in dispatch order: the promise
  returned by `fn()` is modelled by its outcome (fulfilled with a value or
  rejected with an error);
* `_inviteToRoom` is translated with `getAddressType` (defined in
  `UserAddress.js`, outside the sources at hand) abstracted as a function
  parameter returning the address type, `none` standing for a null result;
* `isValid3pidInvite` reads the event through the truthiness of each content
  key, which is all the JS code inspects.
-/

namespace RoomInvite

/-- A state event as read by the selector: only `event.origin_server_ts`
is inspected. -/
structure StateEvent where
  origin_server_ts : Nat
deriving Repr, DecidableEq

/-- The slice of a matrix `Room` read by `_selectDirectChat` and
`_getDirectMessageRooms`. `members` maps user id to membership string
(`currentState.members[u].membership`); keys are distinct in a JS object,
and `Object.keys` order is the list order. `myMembership` is
`room.getMyMembership()`. `createEvents` lists the events returned by
`currentState.getStateEvents("m.room.create")` in order. -/
structure Room where
  roomId : String
  members : List (String × String)
  myMembership : String
  createEvents : List StateEvent
deriving Repr, DecidableEq

/-- `roomCreateEvent[0] ? roomCreateEvent[0].event.origin_server_ts : 0`. -/
def roomCreateDate (room : Room) : Nat :=
  match room.createEvents.head? with
  | some ev => ev.origin_server_ts
  | none => 0

/-- The `selectedRoom` record accumulated by `_selectDirectChat`:
initialised with `room: null, status: null, date: null, weight: 0`. -/
structure SelectedRoom where
  room : Option Room
  status : Option String
  date : Option Nat
  weight : Nat
deriving Repr, DecidableEq

/-- The initial `selectedRoom` value. -/
def initialSelectedRoom : SelectedRoom := ⟨none, none, none, 0⟩

/-- JS comparison `n < selectedRoom.date` for a numeric `n`: when `date` is
`null` it coerces to `0`, and `n < 0` is false for a non-negative `n`. -/
def ltDate (n : Nat) : Option Nat → Bool
  | some d => decide (n < d)
  | none => false

/-- One iteration of the `roomList.forEach` body of `_selectDirectChat`.
The JS disjunct `selectedRoom === null` of each branch condition is omitted:
the variable always holds an object (it is assigned object literals at
initialisation and in every branch), so that disjunct is identically false.
`him.membership` is the target's entry in the membership map; the `getD ""`
default is unreachable for rooms produced by `_getDirectMessageRooms`,
which guarantees the target is a member. -/
def selectStep (userId : String) (selectedRoom : SelectedRoom) (room : Room) :
    SelectedRoom :=
  let hisMembership := (room.members.lookup userId).getD ""
  let myMembership := room.myMembership
  let roomCreateEventDate := roomCreateDate room
  if myMembership = "join" ∧ hisMembership = "join" then
    if selectedRoom.weight < 4 ∨
        (selectedRoom.weight = 4 ∧ ltDate roomCreateEventDate selectedRoom.date) then
      ⟨some room, some "join-join", some roomCreateEventDate, 4⟩
    else selectedRoom
  else if myMembership = "invite" ∧ hisMembership = "join" then
    if selectedRoom.weight < 3 ∨
        (selectedRoom.weight = 3 ∧ ltDate roomCreateEventDate selectedRoom.date) then
      ⟨some room, some "invite-join", some roomCreateEventDate, 3⟩
    else selectedRoom
  else if myMembership = "join" ∧ hisMembership = "invite" then
    if selectedRoom.weight < 2 ∨
        (selectedRoom.weight = 2 ∧ ltDate roomCreateEventDate selectedRoom.date) then
      ⟨some room, some "join-invite", some roomCreateEventDate, 2⟩
    else selectedRoom
  else if myMembership = "join" ∧ hisMembership = "leave" then
    if selectedRoom.weight < 1 ∨
        (selectedRoom.weight = 1 ∧ ltDate roomCreateEventDate selectedRoom.date) then
      ⟨some room, some "join-leave", some roomCreateEventDate, 1⟩
    else selectedRoom
  else
    ⟨none, none, none, 0⟩

/-- The filter predicate of `_getDirectMessageRooms`: exactly two member
keys, containing the target address and the current user. -/
def isDirectMessageRoom (currentUserId addr : String) (r : Room) : Bool :=
  let users := r.members.map Prod.fst
  users.length == 2 && users.contains addr && users.contains currentUserId

/-- `_getDirectMessageRooms(addr)`, with the current user id and the client's
room list passed explicitly. The JS callback returns `true` or `undefined`,
so `filter` keeps exactly the rooms satisfying the condition. -/
def _getDirectMessageRooms (currentUserId addr : String) (rooms : List Room) :
    List Room :=
  rooms.filter (isDirectMessageRoom currentUserId addr)

/-- `_selectDirectChat(userId)`, with the current user id and room list
explicit. The final statement replaces the accumulated record by `null`
unless `room`, `status` and `date` are all non-null. -/
def _selectDirectChat (currentUserId userId : String) (rooms : List Room) :
    Option SelectedRoom :=
  let roomList := _getDirectMessageRooms currentUserId userId rooms
  let selectedRoom := roomList.foldl (selectStep userId) initialSelectedRoom
  if selectedRoom.room ≠ none ∧ selectedRoom.status ≠ none ∧
      selectedRoom.date ≠ none then
    some selectedRoom
  else
    none

/-- The calls `_inviteToRoom` makes on the matrix client. -/
inductive InviteCall where
  | inviteByEmail (roomId addr : String)
  | invite (roomId addr : String)
deriving Repr, DecidableEq

/-- `_inviteToRoom(roomId, addr)`. `getAddressType` lives in
`UserAddress.js` and is abstracted as the parameter `getAddressType`
(`none` models a null/undefined address type). A thrown
`Error('Unsupported address')` is modelled as `Except.error`; the two
delegations to the client are modelled by the `InviteCall` they perform. -/
def _inviteToRoom (getAddressType : String → Option String)
    (roomId addr : String) : Except String InviteCall :=
  let addrType := getAddressType addr
  if addrType = some "email" then
    Except.ok (InviteCall.inviteByEmail roomId addr)
  else if addrType = some "mx-user-id" then
    Except.ok (InviteCall.invite roomId addr)
  else
    Except.error "Unsupported address"

/-- The slice of a `MatrixEvent` read by `isValid3pidInvite`: its type and,
for each content key, whether its value is truthy (an absent key reads as
`undefined`, which is falsy). -/
structure MatrixEvent where
  type : String
  content : List (String × Bool)
deriving Repr, DecidableEq

/-- Truthiness of `event.getContent()[key]`. -/
def getContentTruthy (event : MatrixEvent) (key : String) : Bool :=
  (event.content.lookup key).getD false

/-- The `requiredKeys` array of `isValid3pidInvite`. -/
def requiredKeys : List String := ["key_validity_url", "public_key", "display_name"]

/-- `isValid3pidInvite(event)`; `none` models a null/undefined event. The
indexed loop returning `false` at the first falsy required key and `true`
afterwards is the conjunction over `requiredKeys`. -/
def isValid3pidInvite : Option MatrixEvent → Bool
  | none => false
  | some event =>
    if event.type ≠ "m.room.third_party_invite" then false
    else requiredKeys.all (fun key => getContentTruthy event key)

end RoomInvite

namespace AsyncActions

/-- An action record handed to `dispatch`: the JS objects
`{action}`, `{action, result}` and `{action, err}`, a missing field being
`none`. -/
structure DispatchedAction (V E : Type) where
  action : String
  result : Option V
  err : Option E
deriving Repr, DecidableEq

/-- The outcome of the promise returned by `fn()`: fulfilled with a value
or rejected with an error. -/
inductive PromiseOutcome (V E : Type) where
  | success (v : V)
  | failure (e : E)
deriving Repr, DecidableEq

/-- `asyncAction(id, fn)` applied to a dispatch function, modelled by the
list of records passed to `dispatch`, in order: the pending record is
dispatched synchronously, then the `then` handler dispatches the success
record or the `catch` handler dispatches the failure record. -/
def asyncAction {V E : Type} (id : String) (fn : PromiseOutcome V E) :
    List (DispatchedAction V E) :=
  ⟨id ++ ".pending", none, none⟩ ::
    match fn with
    | PromiseOutcome.success result => [⟨id ++ ".success", some result, none⟩]
    | PromiseOutcome.failure err => [⟨id ++ ".failure", none, some err⟩]

end AsyncActions

namespace RoomInvite

/-! ### Concrete inputs used by witnesses and the counterexample run -/

/-- A two-party room where caller and target are both joined; created at 5. -/
def roomMutualJoin : Room :=
  ⟨"!mutual", [("@me:srv", "join"), ("@target:srv", "join")], "join", [⟨5⟩]⟩

/-- A two-party room where both parties have left; created at 6. Its
membership combination matches none of the four ranked states. -/
def roomBothLeave : Room :=
  ⟨"!left", [("@me:srv", "leave"), ("@target:srv", "leave")], "leave", [⟨6⟩]⟩

/-- A mutual-join two-party room created at timestamp 1. -/
def roomEarlier : Room :=
  ⟨"!early", [("@a:s", "join"), ("@b:s", "join")], "join", [⟨1⟩]⟩

/-- A mutual-join two-party room created at timestamp 2. -/
def roomLater : Room :=
  ⟨"!late", [("@a:s", "join"), ("@b:s", "join")], "join", [⟨2⟩]⟩

/-- A three-member room containing both the caller and the target. -/
def roomTriple : Room :=
  ⟨"!grp", [("@a:s", "join"), ("@b:s", "join"), ("@c:s", "join")], "join", [⟨3⟩]⟩

/-- The candidate `_selectDirectChat` produces for `roomEarlier` alone. -/
def selMutualJoinEarly : SelectedRoom :=
  ⟨some roomEarlier, some "join-join", some 1, 4⟩

/-- Invariant carried by the `forEach` accumulator of `_selectDirectChat`:
the running selection is either the empty candidate or a fully populated
candidate built from a room of the list, with the status label and weight
of the branch that accepted it. -/
def GoodSel (l : List Room) (sel : SelectedRoom) : Prop :=
  sel.room = none ∨
  ∃ r, r ∈ l ∧ sel.room = some r ∧ sel.date = some (roomCreateDate r) ∧
    ((sel.status = some "join-join" ∧ sel.weight = 4) ∨
     (sel.status = some "invite-join" ∧ sel.weight = 3) ∨
     (sel.status = some "join-invite" ∧ sel.weight = 2) ∨
     (sel.status = some "join-leave" ∧ sel.weight = 1))

lemma selectStep_good (target : String) {l : List Room} {sel : SelectedRoom}
    {room : Room} (hroom : room ∈ l) (hsel : GoodSel l sel) :
    GoodSel l (selectStep target sel room) := by
  simp only [selectStep]
  split_ifs <;>
    first
      | exact hsel
      | exact Or.inl rfl
      | exact Or.inr ⟨room, hroom, rfl, rfl, Or.inl ⟨rfl, rfl⟩⟩
      | exact Or.inr ⟨room, hroom, rfl, rfl, Or.inr (Or.inl ⟨rfl, rfl⟩)⟩
      | exact Or.inr ⟨room, hroom, rfl, rfl, Or.inr (Or.inr (Or.inl ⟨rfl, rfl⟩))⟩
      | exact Or.inr ⟨room, hroom, rfl, rfl, Or.inr (Or.inr (Or.inr ⟨rfl, rfl⟩))⟩

lemma foldl_selectStep_good (target : String) (l : List Room) :
    ∀ l' : List Room, (∀ r ∈ l', r ∈ l) → ∀ sel : SelectedRoom, GoodSel l sel →
      GoodSel l (l'.foldl (selectStep target) sel) := by
  intro l'
  induction l' with
  | nil => exact fun _ sel h => h
  | cons a t ih =>
    intro hsub sel h
    simp only [List.foldl_cons]
    exact ih (fun r hr => hsub r (List.mem_cons_of_mem a hr)) _
      (selectStep_good target (hsub a (List.mem_cons_self a t)) h)

/-- Claim C1: contrary to the spec, a later room whose membership
combination matches none of the four ranked states DOES erase a previously
accepted best candidate. `roomMutualJoin` alone yields the weight-4
candidate, but appending the rejected `roomBothLeave` makes
`_selectDirectChat` return `null`: the `else` branch resets the running
selection and the reset survives to the final result. -/
theorem selectDirectChat_reset_erases_best :
    _selectDirectChat "@me:srv" "@target:srv" [roomMutualJoin] =
      some ⟨some roomMutualJoin, some "join-join", some 5, 4⟩ ∧
    _selectDirectChat "@me:srv" "@target:srv" [roomMutualJoin, roomBothLeave] = none :=
  ⟨rfl, rfl⟩

/-- Claim C2: with exactly two qualifying mutual-join rooms with creation
timestamps `t1 < t2`, `_selectDirectChat` returns the room created at `t1`,
whichever of the two orders the room list presents them in. -/
theorem selectDirectChat_earliest_of_two_mutual_join (me target : String)
    (r1 r2 : Room) (t1 t2 : Nat)
    (h1q : isDirectMessageRoom me target r1 = true)
    (h2q : isDirectMessageRoom me target r2 = true)
    (h1m : r1.myMembership = "join")
    (h1h : (r1.members.lookup target).getD "" = "join")
    (h2m : r2.myMembership = "join")
    (h2h : (r2.members.lookup target).getD "" = "join")
    (h1d : roomCreateDate r1 = t1) (h2d : roomCreateDate r2 = t2)
    (hlt : t1 < t2) :
    _selectDirectChat me target [r1, r2] =
      some ⟨some r1, some "join-join", some t1, 4⟩ ∧
    _selectDirectChat me target [r2, r1] =
      some ⟨some r1, some "join-join", some t1, 4⟩ := by
  have hasymm : ¬ t2 < t1 := Nat.lt_asymm hlt
  constructor
  · simp [_selectDirectChat, _getDirectMessageRooms, List.filter, h1q, h2q,
      selectStep, h1m, h1h, h2m, h2h, h1d, h2d, initialSelectedRoom, ltDate, hasymm]
  · simp [_selectDirectChat, _getDirectMessageRooms, List.filter, h1q, h2q,
      selectStep, h1m, h1h, h2m, h2h, h1d, h2d, initialSelectedRoom, ltDate, hlt]

/-- Witness for claim C2 at the concrete rooms created at 1 and 2. -/
theorem selectDirectChat_earliest_of_two_mutual_join_witness :
    _selectDirectChat "@a:s" "@b:s" [roomEarlier, roomLater] =
      some ⟨some roomEarlier, some "join-join", some 1, 4⟩ ∧
    _selectDirectChat "@a:s" "@b:s" [roomLater, roomEarlier] =
      some ⟨some roomEarlier, some "join-join", some 1, 4⟩ :=
  selectDirectChat_earliest_of_two_mutual_join "@a:s" "@b:s" roomEarlier roomLater 1 2
    rfl rfl rfl rfl rfl rfl rfl rfl (by decide)

/-- Claim C5: when no room of the list passes the two-party filter,
`_selectDirectChat` returns `null`. -/
theorem selectDirectChat_no_two_party_none (me target : String) (rooms : List Room)
    (h : ∀ r ∈ rooms, isDirectMessageRoom me target r = false) :
    _selectDirectChat me target rooms = none := by
  have hf : _getDirectMessageRooms me target rooms = [] := by
    rw [_getDirectMessageRooms, List.filter_eq_nil_iff]
    intro r hr
    simp [h r hr]
  simp [_selectDirectChat, hf, initialSelectedRoom]

/-- Witness for claim C5: a lone three-member room yields no selection. -/
theorem selectDirectChat_no_two_party_none_witness :
    _selectDirectChat "@a:s" "@b:s" [roomTriple] = none :=
  selectDirectChat_no_two_party_none "@a:s" "@b:s" [roomTriple] (by decide)

/-- Claim C6: when the filter keeps exactly one room and both the caller's
and the target's memberships there are `join`, `_selectDirectChat` returns
that room with status `join-join` (the mutual-join label), its creation
date, and weight 4. -/
theorem selectDirectChat_single_mutual_join (me target : String)
    (rooms : List Room) (r : Room)
    (hf : _getDirectMessageRooms me target rooms = [r])
    (hm : r.myMembership = "join")
    (hh : (r.members.lookup target).getD "" = "join") :
    _selectDirectChat me target rooms =
      some ⟨some r, some "join-join", some (roomCreateDate r), 4⟩ := by
  simp [_selectDirectChat, hf, selectStep, hm, hh, initialSelectedRoom]

/-- Witness for claim C6 at a concrete mutual-join room. -/
theorem selectDirectChat_single_mutual_join_witness :
    _selectDirectChat "@a:s" "@b:s" [roomEarlier] =
      some ⟨some roomEarlier, some "join-join", some (roomCreateDate roomEarlier), 4⟩ :=
  selectDirectChat_single_mutual_join "@a:s" "@b:s" [roomEarlier] roomEarlier rfl rfl rfl

/-- Claim C7: `_getDirectMessageRooms` keeps exactly the rooms whose member
key list has length two and contains both the target and the caller; in
particular a room with three or more members is excluded no matter its
membership states. -/
theorem getDirectMessageRooms_membership (me target : String)
    (rooms : List Room) (r : Room) :
    (r ∈ _getDirectMessageRooms me target rooms ↔
      r ∈ rooms ∧ (r.members.map Prod.fst).length = 2 ∧
        (r.members.map Prod.fst).contains target = true ∧
        (r.members.map Prod.fst).contains me = true) ∧
    (r ∈ rooms → 3 ≤ (r.members.map Prod.fst).length →
      r ∉ _getDirectMessageRooms me target rooms) := by
  have hiff : r ∈ _getDirectMessageRooms me target rooms ↔
      r ∈ rooms ∧ (r.members.map Prod.fst).length = 2 ∧
        (r.members.map Prod.fst).contains target = true ∧
        (r.members.map Prod.fst).contains me = true := by
    rw [_getDirectMessageRooms, List.mem_filter, isDirectMessageRoom]
    simp [Bool.and_eq_true, and_assoc]
  refine ⟨hiff, fun _ hlen hmem => ?_⟩
  have := (hiff.mp hmem).2.1
  omega

/-- Witness for claim C7: a three-member room containing target and caller
is excluded. -/
theorem getDirectMessageRooms_membership_witness :
    roomTriple ∉ _getDirectMessageRooms "@a:s" "@b:s" [roomTriple] :=
  (getDirectMessageRooms_membership "@a:s" "@b:s" [roomTriple] roomTriple).2
    (by decide) (by decide)

/-- Claim C8: `_inviteToRoom` throws `Unsupported address` exactly when the
address type is neither `email` nor `mx-user-id`; an email address is
delegated to the client's invite-by-email call and an account id to the
client's invite call. -/
theorem inviteToRoom_address_types (getAddressType : String → Option String)
    (roomId addr : String) :
    (_inviteToRoom getAddressType roomId addr = Except.error "Unsupported address" ↔
       getAddressType addr ≠ some "email" ∧ getAddressType addr ≠ some "mx-user-id") ∧
    (getAddressType addr = some "email" →
       _inviteToRoom getAddressType roomId addr =
         Except.ok (InviteCall.inviteByEmail roomId addr)) ∧
    (getAddressType addr = some "mx-user-id" →
       _inviteToRoom getAddressType roomId addr =
         Except.ok (InviteCall.invite roomId addr)) := by
  by_cases h1 : getAddressType addr = some "email"
  · simp [_inviteToRoom, h1]
  · by_cases h2 : getAddressType addr = some "mx-user-id"
    · simp [_inviteToRoom, h1, h2]
    · simp [_inviteToRoom, h1, h2]

/-- Witness for claim C8: an email address is delegated to invite-by-email. -/
theorem inviteToRoom_address_types_witness :
    _inviteToRoom (fun _ => some "email") "!r:s" "a@b.c" =
      Except.ok (InviteCall.inviteByEmail "!r:s" "a@b.c") :=
  (inviteToRoom_address_types (fun _ => some "email") "!r:s" "a@b.c").2.1 rfl

/-- Claim C9: a non-null result of `_selectDirectChat` is a fully populated
candidate: its room is one of the filtered direct-message rooms, its date is
that room's creation date, and its status and weight are one of the four
label/weight pairs; weight 0, a null room or a foreign status never escape. -/
theorem selectDirectChat_result_invariant (me target : String)
    (rooms : List Room) (s : SelectedRoom)
    (h : _selectDirectChat me target rooms = some s) :
    ∃ r, r ∈ _getDirectMessageRooms me target rooms ∧ s.room = some r ∧
      s.date = some (roomCreateDate r) ∧
      ((s.status = some "join-join" ∧ s.weight = 4) ∨
       (s.status = some "invite-join" ∧ s.weight = 3) ∨
       (s.status = some "join-invite" ∧ s.weight = 2) ∨
       (s.status = some "join-leave" ∧ s.weight = 1)) := by
  have hg := foldl_selectStep_good target (_getDirectMessageRooms me target rooms)
    (_getDirectMessageRooms me target rooms) (fun _ hr => hr)
    initialSelectedRoom (Or.inl rfl)
  simp only [_selectDirectChat] at h
  split at h
  · obtain rfl : _ = s := Option.some.inj h
    rcases hg with hnone | ⟨r, hr, hrs, hdate, hw⟩
    · rename_i hcond
      exact absurd hnone hcond.1
    · exact ⟨r, hr, hrs, hdate, hw⟩
  · exact absurd h (by simp)

/-- Witness for claim C9 at a concrete mutual-join selection. -/
theorem selectDirectChat_result_invariant_witness :
    ∃ r, r ∈ _getDirectMessageRooms "@a:s" "@b:s" [roomEarlier] ∧
      selMutualJoinEarly.room = some r ∧
      selMutualJoinEarly.date = some (roomCreateDate r) ∧
      ((selMutualJoinEarly.status = some "join-join" ∧ selMutualJoinEarly.weight = 4) ∨
       (selMutualJoinEarly.status = some "invite-join" ∧ selMutualJoinEarly.weight = 3) ∨
       (selMutualJoinEarly.status = some "join-invite" ∧ selMutualJoinEarly.weight = 2) ∨
       (selMutualJoinEarly.status = some "join-leave" ∧ selMutualJoinEarly.weight = 1)) :=
  selectDirectChat_result_invariant "@a:s" "@b:s" [roomEarlier] selMutualJoinEarly rfl

/-- Claim C10: `isValid3pidInvite` returns `true` exactly when the event is
present, of type `m.room.third_party_invite`, and carries truthy values for
`key_validity_url`, `public_key` and `display_name`. -/
theorem isValid3pidInvite_iff (ev : Option MatrixEvent) :
    isValid3pidInvite ev = true ↔
      ∃ e, ev = some e ∧ e.type = "m.room.third_party_invite" ∧
        getContentTruthy e "key_validity_url" = true ∧
        getContentTruthy e "public_key" = true ∧
        getContentTruthy e "display_name" = true := by
  cases ev with
  | none => simp [isValid3pidInvite]
  | some e =>
    by_cases h : e.type = "m.room.third_party_invite"
    · simp [isValid3pidInvite, requiredKeys, List.all, h, and_assoc]
    · simp [isValid3pidInvite, requiredKeys, h]

end RoomInvite

namespace AsyncActions

/-- Claim C3: for an operation fulfilled with `v`, `asyncAction` dispatches
exactly two records, the pending record first and then the success record
carrying `v`. -/
theorem asyncAction_success_dispatches {V E : Type} (id : String) (v : V) :
    asyncAction id (PromiseOutcome.success v : PromiseOutcome V E) =
      [⟨id ++ ".pending", none, none⟩, ⟨id ++ ".success", some v, none⟩] := rfl

/-- Claim C4: for an operation rejected with `e`, `asyncAction` dispatches
the pending record and then the failure record carrying `e`; moreover for
every operation outcome the first dispatch is the pending record and it is
followed by exactly one settling dispatch, a success or a failure record. -/
theorem asyncAction_failure_dispatches {V E : Type} (id : String) (e : E) :
    asyncAction id (PromiseOutcome.failure e : PromiseOutcome V E) =
      [⟨id ++ ".pending", none, none⟩, ⟨id ++ ".failure", none, some e⟩] ∧
    ∀ fn : PromiseOutcome V E,
      (asyncAction id fn).head? = some ⟨id ++ ".pending", none, none⟩ ∧
      ((∃ v, asyncAction id fn =
          [⟨id ++ ".pending", none, none⟩, ⟨id ++ ".success", some v, none⟩]) ∨
       (∃ er, asyncAction id fn =
          [⟨id ++ ".pending", none, none⟩, ⟨id ++ ".failure", none, some er⟩])) := by
  refine ⟨rfl, fun fn => ⟨?_, ?_⟩⟩
  · cases fn <;> rfl
  · cases fn with
    | success v => exact Or.inl ⟨v, rfl⟩
    | failure e => exact Or.inr ⟨e, rfl⟩

end AsyncActions
